import Mathlib

/-!
Shallow embedding of the RK3588 TSADC driver (src/day2/tsadc.c and
src/day2/tsadc_platform.c) and proofs about its conversion engine,
consumer adapters, ioctl surface, interrupt handler and teardown path.

Machine integers are modelled as unbounded `Int`/`Nat` with the C `u32`
conversions made explicit (`% 2^32`).  Fixed-size C arrays become Lean
lists indexed with `List.getD`; all theorems keep indices inside the
preconditions that the C code relies on.  Loops are embedded with an
explicit fuel argument large enough to cover every iteration the C loop
can perform, so that all definitions compute by kernel reduction.
-/

/-- One row of the calibration table: `struct tsadc_table { int temp; int code; }`. -/
structure TsadcEntry where
  temp : Int
  code : Int
deriving DecidableEq, Repr, Inhabited

/-- `2^32`, the modulus of C `u32` arithmetic. -/
def U32MOD : Nat := 4294967296

/-- Conversion of a C `int` value to `u32` (reduction modulo `2^32`). -/
def toU32 (x : Int) : Nat := (x % (4294967296 : Int)).toNat

/-- Conversion of a C `u32` value back to a 32-bit `int`
(two's-complement wrap, the behaviour of the compilers this kernel
code is built with). -/
def ofU32 (x : Nat) : Int := if x < 2147483648 then (x : Int) else (x : Int) - 4294967296

/-- The calibration table of the character driver
(`rk3588_code_table` in src/day2/tsadc.c, the `#else` branch):
codes and temperatures both strictly descending with the index. -/
def rk3588_code_table : List TsadcEntry :=
  [⟨125, 395⟩, ⟨85, 350⟩, ⟨25, 285⟩, ⟨-40, 215⟩]

/-- The calibration table of the platform driver
(`rk3588_code_table` in src/day2/tsadc_platform.c): temperatures
ascending, codes descending with the index. -/
def rk3588_code_table_platform : List TsadcEntry :=
  [⟨-40, 3800⟩, ⟨-30, 3630⟩, ⟨-20, 3440⟩, ⟨-10, 3240⟩,
   ⟨0, 3020⟩, ⟨10, 2790⟩, ⟨20, 2550⟩, ⟨30, 2290⟩,
   ⟨40, 2020⟩, ⟨50, 1730⟩, ⟨60, 1420⟩, ⟨70, 1090⟩,
   ⟨80, 740⟩, ⟨90, 360⟩, ⟨100, -50⟩, ⟨110, -530⟩]

/-- Status results of the conversion engine.  `notReady` models
`-EAGAIN`, `outOfRange` models `-EINVAL`.  `searchFallthrough` marks
the case in which the C `while (low <= high)` loop exits without the
`break` ever firing: the C code would then read `mid` without a
defining assignment from this pass. -/
inductive TsadcStatus where
  | notReady
  | outOfRange
  | searchFallthrough
deriving DecidableEq, Repr

instance {ε α : Type} [DecidableEq ε] [DecidableEq α] : DecidableEq (Except ε α) := fun a b =>
  match a, b with
  | .ok x, .ok y =>
      if h : x = y then isTrue (by rw [h]) else isFalse (fun he => by cases he; exact h rfl)
  | .error x, .error y =>
      if h : x = y then isTrue (by rw [h]) else isFalse (fun he => by cases he; exact h rfl)
  | .ok _, .error _ => isFalse (fun he => by cases he)
  | .error _, .ok _ => isFalse (fun he => by cases he)

/-- The binary-search loop of `code_to_temp` / `rk3588_tsadc_code_to_temp`:

    while (low <= high) {
        mid = (low + high) / 2;
        if (code >= table[mid].code && code <= table[mid - 1].code)
            break;
        else if (code > table[mid].code)
            high = mid - 1;
        else
            low = mid + 1;
    }

`some mid` is the `break` exit, `none` is the fall-through exit (or
exhausted fuel; callers pass fuel `t.length`, which covers every
iteration the loop can make from `low = 1`, `high = t.length - 1`). -/
def bsearchLoop (t : List TsadcEntry) (code : Int) : Nat → Nat → Nat → Option Nat
  | 0, _, _ => none
  | fuel + 1, low, high =>
    if low ≤ high then
      let mid := (low + high) / 2
      if (t.getD mid default).code ≤ code ∧ code ≤ (t.getD (mid - 1) default).code then
        some mid
      else if (t.getD mid default).code < code then
        bsearchLoop t code fuel low (mid - 1)
      else
        bsearchLoop t code fuel (mid + 1) high
    else none

/-- The interpolation step of `code_to_temp` in src/day2/tsadc.c:

    num = table[mid - 1].temp - table[mid].temp;   // u32
    den = table[mid - 1].code - table[mid].code;   // u32
    *temp = ((code - table[mid].code) * num) / den + table[mid].temp;

with the C usual arithmetic conversions (the `int` operands are
converted to `u32`, the multiplication, division and addition are
performed modulo `2^32`, and the result is stored back into an `int`). -/
def interpTemp (t : List TsadcEntry) (code : Int) (mid : Nat) : Int :=
  let num : Nat := toU32 ((t.getD (mid - 1) default).temp - (t.getD mid default).temp)
  let den : Nat := toU32 ((t.getD (mid - 1) default).code - (t.getD mid default).code)
  ofU32 ((toU32 (code - (t.getD mid default).code) * num % U32MOD / den
          + toU32 ((t.getD mid default).temp)) % U32MOD)

/-- `code_to_temp` from src/day2/tsadc.c (lines 114-138): range guards,
binary search, then linear interpolation. -/
def code_to_temp (t : List TsadcEntry) (code : Int) : Except TsadcStatus Int :=
  let high := t.length - 1
  if (t.getD 0 default).code < code then .error .notReady
  else if code < (t.getD high default).code then .error .outOfRange
  else
    match bsearchLoop t code t.length 1 high with
    | some mid => .ok (interpTemp t code mid)
    | none => .error .searchFallthrough

/-- The interpolation step of `rk3588_tsadc_code_to_temp` in
src/day2/tsadc_platform.c (line 135), which subtracts instead:

    *temp = table[mid - 1].temp - ((code - table[mid].code) * num) / den;

again with u32 usual arithmetic conversions. -/
def rk3588_interpTemp (t : List TsadcEntry) (code : Int) (mid : Nat) : Int :=
  let num : Nat := toU32 ((t.getD (mid - 1) default).temp - (t.getD mid default).temp)
  let den : Nat := toU32 ((t.getD (mid - 1) default).code - (t.getD mid default).code)
  let q : Nat := toU32 (code - (t.getD mid default).code) * num % U32MOD / den
  ofU32 ((toU32 ((t.getD (mid - 1) default).temp) + (U32MOD - q)) % U32MOD)

/-- `rk3588_tsadc_code_to_temp` from src/day2/tsadc_platform.c
(lines 106-138): the same guards and search as `code_to_temp`, with the
platform driver's interpolation expression. -/
def rk3588_tsadc_code_to_temp (t : List TsadcEntry) (code : Int) : Except TsadcStatus Int :=
  let high := t.length - 1
  if (t.getD 0 default).code < code then .error .notReady
  else if code < (t.getD high default).code then .error .outOfRange
  else
    match bsearchLoop t code t.length 1 high with
    | some mid => .ok (rk3588_interpTemp t code mid)
    | none => .error .searchFallthrough

/-- The scan loop of `temp_to_code` (src/day2/tsadc.c lines 144-149):

    for (i = 0; i < ARRAY_SIZE(rk3588_code_table) - 1; i++)
        if (temp <= table[i].temp && temp > table[i+1].temp)
            return table[i].code;
    return table[0].code; // Default to coldest

Fuel `t.length` covers all iterations; exhausting it coincides with the
loop running off the end, which returns `table[0].code`. -/
def temp_to_code_loop (t : List TsadcEntry) (temp : Int) : Nat → Nat → Int
  | 0, _ => (t.getD 0 default).code
  | fuel + 1, i =>
    if i < t.length - 1 then
      if temp ≤ (t.getD i default).temp ∧ (t.getD (i + 1) default).temp < temp then
        (t.getD i default).code
      else
        temp_to_code_loop t temp fuel (i + 1)
    else (t.getD 0 default).code

/-- `temp_to_code` from src/day2/tsadc.c (lines 140-151). -/
def temp_to_code (t : List TsadcEntry) (temp : Int) : Int :=
  temp_to_code_loop t temp t.length 0

/-- Result of `my_read` (src/day2/tsadc.c lines 168-190).
`eof` is the `return 0` path, `err` a negative conversion errno
surfaced to the caller, `ok line newOff` the successful path: `line`
is the text produced by `sprintf(kbuf, "%d\n", temp_c)` and copied to
the user buffer, `newOff` the updated `*off`.  `copy_to_user` is
modelled as succeeding (the user pointer is environment input). -/
inductive ReadResult where
  | eof
  | err (e : TsadcStatus)
  | ok (line : String) (newOff : Int)
deriving DecidableEq, Repr

/-- `my_read` from src/day2/tsadc.c: one-shot guard, sample of the data
register (`& TSADC_DATA_MASK`, i.e. `% 4096`), conversion, `-EAGAIN`
substituted by the floor sentinel `-40`, other errors surfaced. -/
def my_read (off : Int) (len : Nat) (regval : Nat) : ReadResult :=
  if 0 < off ∨ len < 12 then .eof
  else
    match code_to_temp rk3588_code_table ((regval % 4096 : Nat) : Int) with
    | .error .notReady =>
        let s := toString (-40 : Int) ++ "\n"
        .ok s (off + (s.length : Int))
    | .error e => .err e
    | .ok v =>
        let s := toString v ++ "\n"
        .ok s (off + (s.length : Int))

/-- `rk3588_tsadc_get_temp` from src/day2/tsadc_platform.c (lines
181-197): masks the sampled register value with `TSADC_DATA_MASK`,
converts it, substitutes `-EAGAIN` with the sentinel `-40000`
(millidegrees) and returns success, and passes every other conversion
result through unchanged. -/
def rk3588_tsadc_get_temp (regval : Nat) : Except TsadcStatus Int :=
  match rk3588_tsadc_code_to_temp rk3588_code_table_platform ((regval % 4096 : Nat) : Int) with
  | .error .notReady => .ok (-40000)
  | r => r

/-- The fields of `struct tsadc_dev` that the interrupt handler touches:
the active-channel selector and the single device-wide event flag. -/
structure TsadcDevState where
  current_channel : Nat
  irq_fired : Bool
deriving DecidableEq, Repr

/-- Observable behaviour of one `tsadc_isr` dispatch: the value written
back to `TSADC_INT_PD`, the value of `dev->irq_fired` afterwards, and
whether `wake_up_interruptible(&dev->waitq)` was called. -/
structure IsrResult where
  ackWrite : Nat
  fired : Bool
  woke : Bool
deriving DecidableEq, Repr

/-- `tsadc_isr` from src/day2/tsadc.c (lines 251-265): read
`TSADC_INT_PD` once (`intPd` is the value read), write the same value
back, and if the active channel's bit is set in it, set the device's
event flag and wake the wait queue. -/
def tsadc_isr (s : TsadcDevState) (intPd : Nat) : IsrResult :=
  if intPd.testBit s.current_channel then
    { ackWrite := intPd, fired := true, woke := true }
  else
    { ackWrite := intPd, fired := s.irq_fired, woke := false }

/-- The fields of `struct tsadc_dev` that `my_ioctl` touches. -/
structure TsadcCharState where
  current_channel : Int
  int_threshold_temp : Int
  irq_fired : Bool
deriving DecidableEq, Repr

/-- The ioctl commands of src/day2/tsadc.c with their decoded
argument (`copy_from_user` modelled as succeeding). -/
inductive IoctlCmd where
  | setChannel (arg : Int)
  | getChannel
  | setIntThreshold (arg : Int)
  | other
deriving DecidableEq, Repr

/-- Observable result of one `my_ioctl` call: the returned value
(0 or a negative errno), the device state afterwards, the register
writes issued (offset, value) in order, and the value copied back to
user space, if any. -/
structure IoctlResult where
  ret : Int
  state : TsadcCharState
  regWrites : List (Int × Int)
  copiedOut : Option Int
deriving DecidableEq, Repr

/-- Register offset `TSADC_COMP_INT(chn) = 0x0030 + chn * 4`. -/
def TSADC_COMP_INT (chn : Int) : Int := 48 + chn * 4

/-- Register offset `TSADC_INT_EN = 0x0008`. -/
def TSADC_INT_EN : Int := 8

/-- `TSADC_INT_SRC_EN(chn) = BIT(chn)` for the channel values that
reach it (non-negative, below 8). -/
def TSADC_INT_SRC_EN (chn : Int) : Int := (2 : Int) ^ chn.toNat

/-- `my_ioctl` from src/day2/tsadc.c (lines 192-225).
`TSADC_SET_CHANNEL` validates `0 <= arg < TSADC_MAX_CHANNELS` (8) and
returns `-EINVAL` (-22) without touching any state otherwise;
`TSADC_GET_CHANNEL` copies the selector out; `TSADC_SET_INT_THRESHOLD`
stores the temperature, writes `temp_to_code` of it to the active
channel's comparator register and enables that channel's interrupt
source; unknown commands return `-ENOTTY` (-25). -/
def my_ioctl (s : TsadcCharState) : IoctlCmd → IoctlResult
  | .setChannel arg =>
      if arg < 0 ∨ 8 ≤ arg then ⟨-22, s, [], none⟩
      else ⟨0, { s with current_channel := arg }, [], none⟩
  | .getChannel => ⟨0, s, [], some s.current_channel⟩
  | .setIntThreshold arg =>
      ⟨0, { s with int_threshold_temp := arg },
        [(TSADC_COMP_INT s.current_channel, temp_to_code rk3588_code_table arg),
         (TSADC_INT_EN, TSADC_INT_SRC_EN s.current_channel)], none⟩
  | .other => ⟨-25, s, [], none⟩

/-- The teardown steps a device teardown may perform, in the
vocabulary of src/day2/tsadc.c.  `wakeUp` stands for a
`wake_up`-family call on `dev->waitq`, the only operation that can
release a thread blocked in `poll` on the device. -/
inductive ExitEffect where
  | regWrite (off : Nat) (val : Nat)
  | resetAssert
  | clkDisable
  | freeIrq
  | resetPut
  | clkPut
  | iounmap
  | cdevDel
  | deviceDestroy
  | classDestroy
  | unregChrdev
  | kfree
  | wakeUp
deriving DecidableEq, BEq, Repr

/-- The exact sequence of effects performed by `tsadc_char_exit`
(src/day2/tsadc.c lines 385-407), in source order.  Offsets 4 and 8
are `TSADC_AUTO_CON` and `TSADC_INT_EN`. -/
def tsadc_char_exit_trace : List ExitEffect :=
  [.regWrite 4 0, .regWrite 8 0, .resetAssert, .clkDisable, .freeIrq,
   .resetPut, .clkPut, .iounmap, .cdevDel, .deviceDestroy, .classDestroy,
   .unregChrdev, .kfree]

/-- Codes strictly descending with the index (adjacent form). -/
def codesStrictDesc (t : List TsadcEntry) : Prop :=
  ∀ i, i < t.length - 1 → (t.getD (i + 1) default).code < (t.getD i default).code

/-- Temperatures strictly descending with the index (adjacent form);
this is the direction of the character driver's table. -/
def tempsStrictDesc (t : List TsadcEntry) : Prop :=
  ∀ i, i < t.length - 1 → (t.getD (i + 1) default).temp < (t.getD i default).temp

/-- All table entries bounded by 16384 in absolute value: the bound
under which the C `u32` interpolation arithmetic never wraps and so
agrees with exact integer arithmetic.  Both source tables satisfy it. -/
def tableBounded (t : List TsadcEntry) : Prop :=
  ∀ i, i < t.length →
    ((t.getD i default).code).natAbs ≤ 16384 ∧ ((t.getD i default).temp).natAbs ≤ 16384

instance (t : List TsadcEntry) : Decidable (codesStrictDesc t) :=
  Nat.decidableBallLT _ _

instance (t : List TsadcEntry) : Decidable (tempsStrictDesc t) :=
  Nat.decidableBallLT _ _

instance (t : List TsadcEntry) : Decidable (tableBounded t) :=
  Nat.decidableBallLT _ _
/-- The binary-search loop, given enough fuel and the bracketing
invariant `table[high].code <= code <= table[low-1].code`, always exits
through the `break`, with `mid` inside `[low, high]` and bracketing the
code.  This is the loop-invariant argument for `code_to_temp`. -/
theorem bsearchLoop_spec (t : List TsadcEntry) (code : Int) :
    ∀ (fuel low high : Nat), 1 ≤ low → low ≤ high → high + 1 - low < fuel →
      (t.getD high default).code ≤ code → code ≤ (t.getD (low - 1) default).code →
      ∃ mid, bsearchLoop t code fuel low high = some mid ∧ low ≤ mid ∧ mid ≤ high ∧
        (t.getD mid default).code ≤ code ∧ code ≤ (t.getD (mid - 1) default).code := by
  intro fuel
  induction fuel with
  | zero => intro low high _ _ h3; omega
  | succ f ih =>
    intro low high h1 hlh hfuel hH hL
    have hmlo : low ≤ (low + high) / 2 := by omega
    have hmhi : (low + high) / 2 ≤ high := by omega
    by_cases hbreak :
        (t.getD ((low + high) / 2) default).code ≤ code ∧
          code ≤ (t.getD ((low + high) / 2 - 1) default).code
    · refine ⟨(low + high) / 2, ?_, hmlo, hmhi, hbreak.1, hbreak.2⟩
      simp only [bsearchLoop, if_pos hlh, if_pos hbreak]
    · by_cases hgt : (t.getD ((low + high) / 2) default).code < code
      · -- branch: high := mid - 1
        have hmidgt : (t.getD ((low + high) / 2 - 1) default).code < code := by
          rcases not_and_or.mp hbreak with h | h
          · exact absurd (le_of_lt hgt) h
          · exact lt_of_not_le h
        have hlowlt : low < (low + high) / 2 := by
          rcases Nat.lt_or_ge low ((low + high) / 2) with h | h
          · exact h
          · exfalso
            have : (low + high) / 2 = low := by omega
            rw [this] at hmidgt
            exact absurd hL (not_le_of_lt hmidgt)
        obtain ⟨m, hm, hml, hmh, hb1, hb2⟩ :=
          ih low ((low + high) / 2 - 1) h1 (by omega) (by omega) (le_of_lt hmidgt) hL
        refine ⟨m, ?_, hml, by omega, hb1, hb2⟩
        simpa only [bsearchLoop, if_pos hlh, if_neg hbreak, if_pos hgt] using hm
      · -- branch: low := mid + 1
        have hle : code ≤ (t.getD ((low + high) / 2) default).code := le_of_not_lt hgt
        have hmidlt : (low + high) / 2 < high := by
          rcases Nat.lt_or_ge ((low + high) / 2) high with h | h
          · exact h
          · exfalso
            have hmh' : (low + high) / 2 = high := by omega
            have hlow : low = high := by omega
            apply hbreak
            constructor
            · rw [hmh']; exact hH
            · have : (low + high) / 2 - 1 = low - 1 := by omega
              rw [this]; exact hL
        have hL' : code ≤ (t.getD ((low + high) / 2 + 1 - 1) default).code := by
          have : (low + high) / 2 + 1 - 1 = (low + high) / 2 := by omega
          rw [this]; exact hle
        obtain ⟨m, hm, hml, hmh, hb1, hb2⟩ :=
          ih ((low + high) / 2 + 1) high (by omega) (by omega) (by omega) hH hL'
        refine ⟨m, ?_, by omega, hmh, hb1, hb2⟩
        simpa only [bsearchLoop, if_pos hlh, if_neg hbreak, if_neg hgt] using hm

/-- From adjacent strict descent of the codes, the codes are strictly
descending across any pair of indices. -/
theorem code_lt_of_lt (t : List TsadcEntry) (hcodes : codesStrictDesc t) :
    ∀ j, j < t.length → ∀ i, i < j →
      (t.getD j default).code < (t.getD i default).code := by
  intro j
  induction j with
  | zero => intro _ i hi; omega
  | succ m ih =>
    intro hj i hi
    have hadj : (t.getD (m + 1) default).code < (t.getD m default).code :=
      hcodes m (by omega)
    rcases Nat.lt_or_ge i m with h | h
    · exact lt_trans hadj (ih (by omega) i h)
    · have : i = m := by omega
      rw [this]; exact hadj

/-- The C `u32` interpolation expression of `code_to_temp` agrees with
exact integer arithmetic (Lean's Euclidean division, which on these
non-negative operands coincides with C's truncating division) whenever
`0 ≤ a ≤ d0`, `0 ≤ n0`, `0 < d0`, the differences are small and the
added table temperature is bounded, so no `u32` wrap occurs. -/
theorem u32interp_eq (a n0 d0 tlt : Int)
    (ha0 : 0 ≤ a) (had : a ≤ d0) (hn0 : 0 ≤ n0) (hd0 : 0 < d0)
    (hn0b : n0 ≤ 32768) (hd0b : d0 ≤ 32768) (htl : tlt.natAbs ≤ 16384) :
    ofU32 ((toU32 a * toU32 n0 % U32MOD / toU32 d0 + toU32 tlt) % U32MOD) =
      tlt + a * n0 / d0 := by
  have hta : toU32 a = a.toNat := by unfold toU32; omega
  have htn : toU32 n0 = n0.toNat := by unfold toU32; omega
  have htd : toU32 d0 = d0.toNat := by unfold toU32; omega
  have haN : (a.toNat : Int) = a := Int.toNat_of_nonneg ha0
  have hnN : (n0.toNat : Int) = n0 := Int.toNat_of_nonneg hn0
  have hdN : (d0.toNat : Int) = d0 := Int.toNat_of_nonneg (le_of_lt hd0)
  have hprod_lt : a.toNat * n0.toNat < U32MOD := by
    have h1 : a.toNat ≤ 32768 := by omega
    have h2 : n0.toNat ≤ 32768 := by omega
    calc a.toNat * n0.toNat ≤ 32768 * 32768 := Nat.mul_le_mul h1 h2
    _ < U32MOD := by unfold U32MOD; omega
  have hprod : a.toNat * n0.toNat % U32MOD = a.toNat * n0.toNat :=
    Nat.mod_eq_of_lt hprod_lt
  rw [hta, htn, htd, hprod]
  have hq_le : a.toNat * n0.toNat / d0.toNat ≤ n0.toNat := by
    have h1 : a.toNat * n0.toNat ≤ d0.toNat * n0.toNat :=
      Nat.mul_le_mul_right _ (by omega)
    calc a.toNat * n0.toNat / d0.toNat ≤ d0.toNat * n0.toNat / d0.toNat :=
          Nat.div_le_div_right h1
    _ = n0.toNat := Nat.mul_div_cancel_left _ (by omega)
  have hq_cast : ((a.toNat * n0.toNat / d0.toNat : Nat) : Int) = a * n0 / d0 := by
    rw [Int.natCast_div]
    push_cast [haN, hnN, hdN]
    rfl
  rw [← hq_cast]
  generalize hq : a.toNat * n0.toNat / d0.toNat = q at hq_le
  have hqb : q ≤ 32768 := by omega
  clear hq hq_le hprod hprod_lt hta htn htd had hd0b hn0b hdN hnN haN ha0 hn0 hd0
  have hT : toU32 tlt = (tlt % 4294967296).toNat := rfl
  rw [hT]
  unfold ofU32 U32MOD
  split <;> omega

/-- On a bracketing interval of a table that descends strictly in code,
descends in temperature, and has entries bounded by 16384, the `u32`
interpolation of `code_to_temp` equals the exact formula
`temp_lo + (code - code_lo) * (temp_hi - temp_lo) / (code_hi - code_lo)`. -/
theorem interpTemp_eq (t : List TsadcEntry) (code : Int) (mid : Nat)
    (hcd : (t.getD mid default).code < (t.getD (mid - 1) default).code)
    (htp : (t.getD mid default).temp ≤ (t.getD (mid - 1) default).temp)
    (hclo : (t.getD mid default).code ≤ code)
    (hchi : code ≤ (t.getD (mid - 1) default).code)
    (hb1 : ((t.getD mid default).code).natAbs ≤ 16384)
    (hb2 : ((t.getD (mid - 1) default).code).natAbs ≤ 16384)
    (hb3 : ((t.getD mid default).temp).natAbs ≤ 16384)
    (hb4 : ((t.getD (mid - 1) default).temp).natAbs ≤ 16384) :
    interpTemp t code mid =
      (t.getD mid default).temp +
        (code - (t.getD mid default).code) *
          ((t.getD (mid - 1) default).temp - (t.getD mid default).temp) /
          ((t.getD (mid - 1) default).code - (t.getD mid default).code) := by
  unfold interpTemp
  exact u32interp_eq
    (code - (t.getD mid default).code)
    ((t.getD (mid - 1) default).temp - (t.getD mid default).temp)
    ((t.getD (mid - 1) default).code - (t.getD mid default).code)
    ((t.getD mid default).temp)
    (by omega) (by omega) (by omega) (by omega) (by omega) (by omega) hb3

/-- C1 (amended): on a strictly monotonic (descending-code,
descending-temperature) bounded table, for every code strictly inside
the covered code range, `code_to_temp` finds via binary search a
bracketing interval (entries `mid` and `mid - 1`) and returns success
with `temp_lo + (code - code_lo) * (temp_hi - temp_lo) / (code_hi -
code_lo)` computed with truncating integer division; at an exact
interior boundary the selected interval is whichever adjacent bracket
the search probes first, not necessarily the one whose lower index is
the boundary index. -/
theorem code_to_temp_interpolates (t : List TsadcEntry) (code : Int)
    (hlen : 2 ≤ t.length) (hcodes : codesStrictDesc t) (htemps : tempsStrictDesc t)
    (hbound : tableBounded t)
    (hlo : (t.getD (t.length - 1) default).code < code)
    (hhi : code < (t.getD 0 default).code) :
    ∃ mid, 1 ≤ mid ∧ mid ≤ t.length - 1 ∧
      (t.getD mid default).code ≤ code ∧ code ≤ (t.getD (mid - 1) default).code ∧
      code_to_temp t code =
        .ok ((t.getD mid default).temp +
          (code - (t.getD mid default).code) *
            ((t.getD (mid - 1) default).temp - (t.getD mid default).temp) /
            ((t.getD (mid - 1) default).code - (t.getD mid default).code)) := by
  obtain ⟨mid, hm, hml, hmh, hb1, hb2⟩ :=
    bsearchLoop_spec t code t.length 1 (t.length - 1) le_rfl (by omega) (by omega)
      (le_of_lt hlo) (by simpa using le_of_lt hhi)
  refine ⟨mid, hml, hmh, hb1, hb2, ?_⟩
  have hmid1 : mid - 1 + 1 = mid := by omega
  have hcd : (t.getD mid default).code < (t.getD (mid - 1) default).code := by
    have h := hcodes (mid - 1) (by omega)
    rwa [hmid1] at h
  have htp : (t.getD mid default).temp ≤ (t.getD (mid - 1) default).temp := by
    have h := htemps (mid - 1) (by omega)
    rw [hmid1] at h
    exact le_of_lt h
  have hbm := hbound mid (by omega)
  have hbm1 := hbound (mid - 1) (by omega)
  unfold code_to_temp
  rw [if_neg (by omega), if_neg (by omega), hm]
  show Except.ok (interpTemp t code mid) = _
  rw [interpTemp_eq t code mid hcd htp hb1 hb2 hbm.1 hbm1.1 hbm.2 hbm1.2]

/-- C10: under the precondition `table[last].code <= code <=
table[0].code` on a strictly monotonic table with at least two entries,
the binary-search loop always exits through the `break` (so `mid` is
assigned on this pass before its use), with `1 <= mid <= last`, so the
accesses `table[mid]` and `table[mid - 1]` are both in bounds, and
`mid` brackets the code. -/
theorem bsearch_terminates_in_bounds (t : List TsadcEntry) (code : Int)
    (hlen : 2 ≤ t.length) (hcodes : codesStrictDesc t) (htemps : tempsStrictDesc t)
    (hlo : (t.getD (t.length - 1) default).code ≤ code)
    (hhi : code ≤ (t.getD 0 default).code) :
    ∃ mid, bsearchLoop t code t.length 1 (t.length - 1) = some mid ∧
      1 ≤ mid ∧ mid ≤ t.length - 1 ∧ mid - 1 < t.length ∧ mid < t.length ∧
      (t.getD mid default).code ≤ code ∧ code ≤ (t.getD (mid - 1) default).code := by
  obtain ⟨mid, hm, hml, hmh, hb1, hb2⟩ :=
    bsearchLoop_spec t code t.length 1 (t.length - 1) le_rfl (by omega) (by omega)
      hlo (by simpa using hhi)
  exact ⟨mid, hm, hml, hmh, by omega, by omega, hb1, hb2⟩

/-- C2: on a strictly monotonic bounded table, `code_to_temp` applied
to the exact code of any table entry returns exactly that entry's
temperature, with no interpolation error. -/
theorem code_to_temp_exact (t : List TsadcEntry) (k : Nat)
    (hlen : 2 ≤ t.length) (hk : k < t.length)
    (hcodes : codesStrictDesc t) (htemps : tempsStrictDesc t)
    (hbound : tableBounded t) :
    code_to_temp t ((t.getD k default).code) = .ok ((t.getD k default).temp) := by
  have hhi : (t.getD k default).code ≤ (t.getD 0 default).code := by
    rcases Nat.eq_zero_or_pos k with h | h
    · rw [h]
    · exact le_of_lt (code_lt_of_lt t hcodes k hk 0 h)
  have hlo : (t.getD (t.length - 1) default).code ≤ (t.getD k default).code := by
    rcases Nat.lt_or_ge k (t.length - 1) with h | h
    · exact le_of_lt (code_lt_of_lt t hcodes (t.length - 1) (by omega) k h)
    · have : k = t.length - 1 := by omega
      rw [this]
  obtain ⟨mid, hm, hml, hmh, hb1, hb2⟩ :=
    bsearchLoop_spec t ((t.getD k default).code) t.length 1 (t.length - 1) le_rfl
      (by omega) (by omega) hlo (by simpa using hhi)
  -- the bracket around an exact entry code pins mid to k or k + 1
  have hmid_ge : k ≤ mid := by
    by_contra hcon
    have h := code_lt_of_lt t hcodes k hk mid (by omega)
    omega
  have hmid_le : mid ≤ k + 1 := by
    by_contra hcon
    have h := code_lt_of_lt t hcodes (mid - 1) (by omega) k (by omega)
    omega
  have hmid1 : mid - 1 + 1 = mid := by omega
  have hcd : (t.getD mid default).code < (t.getD (mid - 1) default).code := by
    have h := hcodes (mid - 1) (by omega)
    rwa [hmid1] at h
  have htp : (t.getD mid default).temp ≤ (t.getD (mid - 1) default).temp := by
    have h := htemps (mid - 1) (by omega)
    rw [hmid1] at h
    exact le_of_lt h
  have hbm := hbound mid (by omega)
  have hbm1 := hbound (mid - 1) (by omega)
  unfold code_to_temp
  rw [if_neg (by omega), if_neg (by omega), hm]
  show Except.ok (interpTemp t ((t.getD k default).code) mid) = _
  rw [interpTemp_eq t ((t.getD k default).code) mid hcd htp hb1 hb2 hbm.1 hbm1.1 hbm.2 hbm1.2]
  rcases Nat.lt_or_ge mid (k + 1) with hc | hc
  · -- mid = k : the offset (code - code_lo) is zero
    have he : mid = k := by omega
    subst he
    simp
  · -- mid = k + 1 : the offset equals the denominator, division is exact
    have he : mid = k + 1 := by omega
    have hk1 : mid - 1 = k := by omega
    rw [hk1]
    congr 1
    have hne : (t.getD k default).code - (t.getD mid default).code ≠ 0 := by
      rw [hk1] at hcd
      omega
    rw [Int.mul_ediv_cancel_left _ hne]
    omega

/-- C3 (amended): for every code strictly above the first entry's code,
`code_to_temp` returns the NotReady status (`-EAGAIN`) and no
temperature; the comparison in the source is strict, so the boundary
code itself converts successfully instead. -/
theorem code_to_temp_not_ready (t : List TsadcEntry) (code : Int)
    (h : (t.getD 0 default).code < code) :
    code_to_temp t code = .error .notReady := by
  unfold code_to_temp
  rw [if_pos h]

/-- Counterexample to C1's tie-break clause: in the shipped table the
interior boundary code 285 sits at index 2, yet the binary search
(from `low = 1`, `high = 3`, first probe `mid = 2`) selects `mid = 2`,
i.e. the interval with entries 1 and 2, whose lower index is 1, not 2.
(The claimed rule would require `mid = 3`.) -/
theorem bsearch_tiebreak_cex :
    rk3588_code_table.getD 2 default = ⟨25, 285⟩ ∧
      bsearchLoop rk3588_code_table 285 4 1 3 = some 2 ∧
      (2 : Nat) - 1 = 1 := by
  decide

/-- Witness for `code_to_temp_interpolates`: the shipped table at the
interior code 320 (the spec's worked regression fixture). -/
theorem code_to_temp_interpolates_witness :
    ∃ mid, 1 ≤ mid ∧ mid ≤ rk3588_code_table.length - 1 ∧
      (rk3588_code_table.getD mid default).code ≤ 320 ∧
      320 ≤ (rk3588_code_table.getD (mid - 1) default).code ∧
      code_to_temp rk3588_code_table 320 =
        .ok ((rk3588_code_table.getD mid default).temp +
          (320 - (rk3588_code_table.getD mid default).code) *
            ((rk3588_code_table.getD (mid - 1) default).temp -
              (rk3588_code_table.getD mid default).temp) /
            ((rk3588_code_table.getD (mid - 1) default).code -
              (rk3588_code_table.getD mid default).code)) :=
  code_to_temp_interpolates rk3588_code_table 320 (by decide) (by decide) (by decide)
    (by decide) (by decide) (by decide)

/-- Witness for `code_to_temp_exact`: the table entry (85, 350), i.e.
`code_to_temp(350) = 85` exactly. -/
theorem code_to_temp_exact_witness :
    code_to_temp rk3588_code_table 350 = .ok 85 :=
  code_to_temp_exact rk3588_code_table 1 (by decide) (by decide) (by decide)
    (by decide) (by decide)

/-- Counterexample to C3: at the boundary itself, `code ==
table[0].code` (395), the source's strict `>` guard does not fire and
the conversion succeeds with 125, instead of returning NotReady as the
claim's `>=` would require. -/
theorem code_to_temp_not_ready_cex :
    (rk3588_code_table.getD 0 default).code = 395 ∧
      code_to_temp rk3588_code_table 395 = .ok 125 := by
  constructor
  · decide
  · rfl

/-- Witness for `code_to_temp_not_ready`: code 400, above the first
entry's code 395. -/
theorem code_to_temp_not_ready_witness :
    code_to_temp rk3588_code_table 400 = .error .notReady :=
  code_to_temp_not_ready rk3588_code_table 400 (by decide)

/-- Witness for `bsearch_terminates_in_bounds`: the shipped table with
code 300. -/
theorem bsearch_terminates_in_bounds_witness :
    ∃ mid, bsearchLoop rk3588_code_table 300 rk3588_code_table.length 1
        (rk3588_code_table.length - 1) = some mid ∧
      1 ≤ mid ∧ mid ≤ rk3588_code_table.length - 1 ∧
      mid - 1 < rk3588_code_table.length ∧ mid < rk3588_code_table.length ∧
      (rk3588_code_table.getD mid default).code ≤ 300 ∧
      300 ≤ (rk3588_code_table.getD (mid - 1) default).code :=
  bsearch_terminates_in_bounds rk3588_code_table 300 (by decide) (by decide)
    (by decide) (by decide) (by decide)

/-- C4: evaluation at the failing input.  At `temp = -50`, strictly
below the table's lowest temperature (-40), `temp_to_code` falls
through its scan and returns `table[0].code = 395` — the code of the
hottest entry (125 C) — although the source comment says "Default to
coldest" and the coldest entry's code is 215.  The in-range path
returns the bracket's hotter endpoint code without interpolation
(e.g. 30 C, inside (25, 85], maps to 350). -/
theorem temp_to_code_default_is_hottest :
    temp_to_code rk3588_code_table (-50) = 395 ∧
      rk3588_code_table.getD 0 default = ⟨125, 395⟩ ∧
      rk3588_code_table.getD 3 default = ⟨-40, 215⟩ ∧
      temp_to_code rk3588_code_table 30 = 350 := by
  decide

/-- Counterexample to C5's per-channel clause: with channel 2 active
and only channel 3's bit set in the value read (8 = bit 3), the set
bit produces no event: the device's only event flag stays false and no
waiter is woken, contradicting "for every channel whose mask bit is
set ... that channel's event flag becomes true and all consumers ...
are woken". -/
theorem tsadc_isr_cex :
    Nat.testBit 8 3 = true ∧ tsadc_isr ⟨2, false⟩ 8 = ⟨8, false, false⟩ := by
  decide

/-- C5 (amended): the handler writes back to the pending register
exactly the value it read; the driver keeps one device-wide event
flag, and only the active channel's bit matters: if that bit is set in
the value read the flag becomes true and the wait queue is woken,
otherwise the flag is unchanged and nobody is woken. -/
theorem tsadc_isr_ack_and_flag (s1 s2 : TsadcDevState) (pd1 pd2 : Nat)
    (hset : pd1.testBit s1.current_channel = true)
    (hclear : pd2.testBit s2.current_channel = false) :
    tsadc_isr s1 pd1 = ⟨pd1, true, true⟩ ∧
      tsadc_isr s2 pd2 = ⟨pd2, s2.irq_fired, false⟩ := by
  constructor <;> simp [tsadc_isr, hset, hclear]

/-- Witness for `tsadc_isr_ack_and_flag`: channel 2 active; pending
value 4 (bit 2) sets the flag and wakes, pending value 8 (bit 3) does
not. -/
theorem tsadc_isr_ack_and_flag_witness :
    tsadc_isr ⟨2, false⟩ 4 = ⟨4, true, true⟩ ∧
      tsadc_isr ⟨2, false⟩ 8 = ⟨8, false, false⟩ :=
  tsadc_isr_ack_and_flag ⟨2, false⟩ ⟨2, false⟩ 4 8 (by decide) (by decide)

/-- C6: when conversion of the freshly sampled (masked) code yields
NotReady, `my_read` succeeds with the floor sentinel -40 and
`rk3588_tsadc_get_temp` succeeds with the floor sentinel -40000;
when conversion yields OutOfRange, `my_read` surfaces exactly that
error; and `rk3588_tsadc_get_temp` in fact always succeeds on a masked
12-bit sample (its table floor is -530, below any masked code, so the
OutOfRange-surfacing clause is vacuous there). -/
theorem read_and_get_temp_substitution (off : Int) (len : Nat) (rA rB rC : Nat)
    (hguard : ¬(0 < off ∨ len < 12))
    (hA : code_to_temp rk3588_code_table ((rA % 4096 : Nat) : Int) = .error .notReady)
    (hB : code_to_temp rk3588_code_table ((rB % 4096 : Nat) : Int) = .error .outOfRange)
    (hC : rk3588_tsadc_code_to_temp rk3588_code_table_platform ((rC % 4096 : Nat) : Int) =
      .error .notReady) :
    my_read off len rA =
      .ok (toString (-40 : Int) ++ "\n") (off + ((toString (-40 : Int) ++ "\n").length : Int)) ∧
    my_read off len rB = .err .outOfRange ∧
    rk3588_tsadc_get_temp rC = .ok (-40000) ∧
    (∀ r : Nat, ∃ v : Int, rk3588_tsadc_get_temp r = .ok v) := by
  refine ⟨?_, ?_, ?_, ?_⟩
  · unfold my_read
    rw [if_neg hguard, hA]
  · unfold my_read
    rw [if_neg hguard, hB]
  · unfold rk3588_tsadc_get_temp
    rw [hC]
  · intro r
    by_cases hhot :
        (rk3588_code_table_platform.getD 0 default).code < ((r % 4096 : Nat) : Int)
    · refine ⟨-40000, ?_⟩
      have hconv : rk3588_tsadc_code_to_temp rk3588_code_table_platform
          ((r % 4096 : Nat) : Int) = .error .notReady := by
        unfold rk3588_tsadc_code_to_temp
        rw [if_pos hhot]
      unfold rk3588_tsadc_get_temp
      rw [hconv]
    · have h0 : (0 : Int) ≤ ((r % 4096 : Nat) : Int) := Int.natCast_nonneg _
      have h15 : (rk3588_code_table_platform.getD
          (rk3588_code_table_platform.length - 1) default).code ≤ ((r % 4096 : Nat) : Int) := by
        have he : (rk3588_code_table_platform.getD
            (rk3588_code_table_platform.length - 1) default).code = -530 := by decide
        omega
      obtain ⟨mid, hm, -, -, -, -⟩ :=
        bsearchLoop_spec rk3588_code_table_platform ((r % 4096 : Nat) : Int)
          rk3588_code_table_platform.length 1 (rk3588_code_table_platform.length - 1)
          le_rfl (by decide) (by decide) h15 (by simpa using le_of_not_lt hhot)
      refine ⟨rk3588_interpTemp rk3588_code_table_platform ((r % 4096 : Nat) : Int) mid, ?_⟩
      have hconv : rk3588_tsadc_code_to_temp rk3588_code_table_platform
          ((r % 4096 : Nat) : Int) =
          .ok (rk3588_interpTemp rk3588_code_table_platform ((r % 4096 : Nat) : Int) mid) := by
        unfold rk3588_tsadc_code_to_temp
        rw [if_neg hhot, if_neg (not_lt.mpr h15), hm]
      unfold rk3588_tsadc_get_temp
      rw [hconv]

/-- Witness for `read_and_get_temp_substitution`: offset 0, length 12,
register values 4000 (NotReady on both tables) and 0 (OutOfRange on
the character driver's table). -/
theorem read_and_get_temp_substitution_witness :
    my_read 0 12 4000 =
      .ok (toString (-40 : Int) ++ "\n") (0 + ((toString (-40 : Int) ++ "\n").length : Int)) ∧
    my_read 0 12 0 = .err .outOfRange ∧
    rk3588_tsadc_get_temp 4000 = .ok (-40000) ∧
    (∀ r : Nat, ∃ v : Int, rk3588_tsadc_get_temp r = .ok v) :=
  read_and_get_temp_substitution 0 12 4000 0 4000 (by decide) rfl rfl rfl

/-- C7: `TSADC_SET_CHANNEL` with an id outside [0, 8) fails with
`-EINVAL`, leaving the whole device state (selector, threshold, event
flag) unchanged and issuing no register write; with an id inside
[0, 8) it succeeds, updating only the active-channel selector. -/
theorem my_ioctl_set_channel (s : TsadcCharState) (bad good : Int)
    (hbad : bad < 0 ∨ 8 ≤ bad) (hgood : 0 ≤ good ∧ good < 8) :
    my_ioctl s (.setChannel bad) = ⟨-22, s, [], none⟩ ∧
      my_ioctl s (.setChannel good) = ⟨0, { s with current_channel := good }, [], none⟩ := by
  constructor
  · show (if bad < 0 ∨ 8 ≤ bad then (⟨-22, s, [], none⟩ : IoctlResult)
      else ⟨0, { s with current_channel := bad }, [], none⟩) = ⟨-22, s, [], none⟩
    rw [if_pos hbad]
  · show (if good < 0 ∨ 8 ≤ good then (⟨-22, s, [], none⟩ : IoctlResult)
      else ⟨0, { s with current_channel := good }, [], none⟩) =
        ⟨0, { s with current_channel := good }, [], none⟩
    rw [if_neg (by omega)]

/-- Witness for `my_ioctl_set_channel`: ids -1 and 8 fail leaving the
state ⟨0, 85, false⟩ intact; id 5 succeeds and changes only the
selector. -/
theorem my_ioctl_set_channel_witness :
    my_ioctl ⟨0, 85, false⟩ (.setChannel (-1)) = ⟨-22, ⟨0, 85, false⟩, [], none⟩ ∧
      my_ioctl ⟨0, 85, false⟩ (.setChannel 8) = ⟨-22, ⟨0, 85, false⟩, [], none⟩ ∧
      my_ioctl ⟨0, 85, false⟩ (.setChannel 5) = ⟨0, ⟨5, 85, false⟩, [], none⟩ :=
  ⟨(my_ioctl_set_channel ⟨0, 85, false⟩ (-1) 5 (by decide) (by decide)).1,
   (my_ioctl_set_channel ⟨0, 85, false⟩ 8 5 (by decide) (by decide)).1,
   (my_ioctl_set_channel ⟨0, 85, false⟩ 8 5 (by decide) (by decide)).2⟩

/-- Counterexample to C8: a read with offset 0 and buffer length 12
(the minimum) while the data register holds 0 returns the OutOfRange
error — not a sample — because the raw code 0 lies below the table
floor 215.  The claim's "returns one sample" omits this error path. -/
theorem my_read_one_shot_cex :
    my_read 0 12 0 = .err .outOfRange := rfl

/-- C8 (amended): a read with offset 0 and length at least 12 returns
exactly one newline-terminated decimal sample — with NotReady
substituted by -40 — unless conversion of the sampled code yields
OutOfRange, in which case that error is returned and nothing is
sampled; a successful read advances the offset to a positive value, so
every further read in the same cycle, like every read with positive
offset or with length below 12, returns zero bytes (end of data) and
samples nothing. -/
theorem my_read_one_shot (offPos : Int) (len lenSmall : Nat) (rAny rOor rOk rNr : Nat) (v : Int)
    (hoff : 0 < offPos) (hlen : 12 ≤ len) (hsmall : lenSmall < 12)
    (hoor : code_to_temp rk3588_code_table ((rOor % 4096 : Nat) : Int) = .error .outOfRange)
    (hok : code_to_temp rk3588_code_table ((rOk % 4096 : Nat) : Int) = .ok v)
    (hnr : code_to_temp rk3588_code_table ((rNr % 4096 : Nat) : Int) = .error .notReady) :
    my_read offPos len rAny = .eof ∧
    my_read 0 lenSmall rAny = .eof ∧
    my_read 0 len rOor = .err .outOfRange ∧
    my_read 0 len rOk = .ok (toString v ++ "\n") (0 + ((toString v ++ "\n").length : Int)) ∧
    my_read 0 len rNr =
      .ok (toString (-40 : Int) ++ "\n") (0 + ((toString (-40 : Int) ++ "\n").length : Int)) ∧
    0 < (0 + ((toString v ++ "\n").length : Int)) ∧
    my_read (0 + ((toString v ++ "\n").length : Int)) len rAny = .eof := by
  have hpos : 0 < (0 + ((toString v ++ "\n").length : Int)) := by
    have h1 : (toString v ++ "\n").length = (toString v).length + 1 := by
      have h2 : ("\n" : String).length = 1 := rfl
      rw [String.length_append, h2]
    omega
  refine ⟨?_, ?_, ?_, ?_, ?_, hpos, ?_⟩
  · unfold my_read
    rw [if_pos (Or.inl hoff)]
  · unfold my_read
    rw [if_pos (Or.inr hsmall)]
  · unfold my_read
    rw [if_neg (by omega), hoor]
  · unfold my_read
    rw [if_neg (by omega), hok]
  · unfold my_read
    rw [if_neg (by omega), hnr]
  · unfold my_read
    rw [if_pos (Or.inl hpos)]

/-- Witness for `my_read_one_shot`: register value 300 converts to
38 C; 0 is out of range; 4000 is not ready. -/
theorem my_read_one_shot_witness :
    my_read 1 12 4000 = .eof ∧
    my_read 0 11 4000 = .eof ∧
    my_read 0 12 0 = .err .outOfRange ∧
    my_read 0 12 300 = .ok (toString (38 : Int) ++ "\n") (0 + ((toString (38 : Int) ++ "\n").length : Int)) ∧
    my_read 0 12 4000 =
      .ok (toString (-40 : Int) ++ "\n") (0 + ((toString (-40 : Int) ++ "\n").length : Int)) ∧
    0 < (0 + ((toString (38 : Int) ++ "\n").length : Int)) ∧
    my_read (0 + ((toString (38 : Int) ++ "\n").length : Int)) 12 4000 = .eof :=
  my_read_one_shot 1 12 11 4000 0 300 4000 38 (by decide) (by decide) (by decide) rfl rfl rfl

/-- C9: evaluation of the teardown path.  The effect sequence of
`tsadc_char_exit` contains no wake of the device wait queue: a thread
blocked in `poll` on the device can only be released by a `wakeUp`
effect, and the teardown performs none (it frees the device instead),
contradicting the required shutdown cancellation. -/
theorem tsadc_char_exit_no_wake :
    tsadc_char_exit_trace.count ExitEffect.wakeUp = 0 := by
  decide
